import Mathlib

/-
Verification of the device-control core of droidtoolbox-python.

Shallow embedding conventions:
- Python floats are modelled as rationals (ℚ); `int(x)` on a nonnegative
  float is modelled as `⌊x⌋.toNat` (truncation toward zero coincides with
  the floor for nonnegative arguments).
- Byte strings / bytearrays are modelled as `List Nat` of byte values.
- Stateful methods become explicit state-passing functions returning the
  new state together with the list of externally visible effects
  (transport writes, lines submitted to bluetoothctl, spawned threads).
- Fallible operations return `Except` / option-like results; a Python
  exception caught inside the function is reflected in the returned value.
-/

-- ----------------------------------------------------------------------
-- Command codec: ConnectionManager._send_motor_direct (src/connect.py 201-221)
-- ----------------------------------------------------------------------

/-- Fixed all-zero stop frame for one motor: `27 00 05 44 [MotorID] 00 00 00`
(src/connect.py line 208). -/
def motorStopFrame (motorId : Nat) : List Nat :=
  [0x27, 0x00, 0x05, 0x44, motorId, 0x00, 0x00, 0x00]

/-- `int(0x60 + (mag * (0xFF - 0x60)))` from src/connect.py line 217.
The argument is a nonnegative magnitude, so Python truncation is the floor. -/
def motorByteSpeed (mag : ℚ) : Nat :=
  (⌊(0x60 : ℚ) + mag * (0xFF - 0x60)⌋).toNat

/-- Body of `ConnectionManager._send_motor_direct` (src/connect.py 201-221),
restricted to the packet it builds (the surrounding connectivity guard and
the scheduling of the write are modelled elsewhere). -/
def sendMotorDirect (motorId : Nat) (speed : ℚ) : List Nat :=
  let mag := |speed|
  if mag < 1/20 then
    motorStopFrame motorId
  else
    let dirNibble : Nat := if speed > 0 then 0x00 else 0x80
    let dmByte := Nat.lor dirNibble motorId
    [0x27, 0x00, 0x05, 0x44, dmByte, motorByteSpeed mag, 0x01, 0x2C]

-- ----------------------------------------------------------------------
-- Low-level GATT write: DroidConnection._write (src/connect.py 32-43)
-- ----------------------------------------------------------------------

/-- Connection-side state of `DroidConnection`: `client` is `none` when no
client object exists, `some b` when a client exists with `is_connected = b`. -/
structure DroidConn where
  client : Option Bool
deriving DecidableEq

/-- `DroidConnection.is_connected` (src/connect.py 27-30). -/
def DroidConn.isConnected (c : DroidConn) : Bool :=
  match c.client with
  | some b => b
  | none => false

/-- Outcome of the underlying `write_gatt_char` transport call: it either
completes or raises some exception. -/
inductive WriteOutcome
  | ok
  | raises
deriving DecidableEq

/-- `DroidConnection._write` (src/connect.py 32-43).  Returns the boolean
result, the connection state after the call, and the list of transport
write attempts made.  The `except Exception` clause maps a raising
transport call to a `false` return; nothing mutates the connection. -/
def droidWrite (c : DroidConn) (data : List Nat) (out : WriteOutcome) :
    Bool × DroidConn × List (List Nat) :=
  if c.isConnected = false then (false, c, [])
  else
    match out with
    | WriteOutcome.ok => (true, c, [data])
    | WriteOutcome.raises => (false, c, [data])

-- ----------------------------------------------------------------------
-- Theorems for the codec and the write path
-- ----------------------------------------------------------------------

/-- Disjoint-nibble packing: for a motor id below 16, OR-ing with the
reverse-direction byte 0x80 is addition, and OR-ing with 0x00 is identity. -/
theorem lor_direction_nibble :
    ∀ m : Nat, m < 16 → Nat.lor 0x80 m = 0x80 + m ∧ Nat.lor 0x00 m = m := by
  decide

/-- C3: the motor frame builder is a pure function of (motorId, speed).
For `|speed| < 0.05` it yields the fixed all-zero stop frame for that motor,
independent of direction; for `0.05 ≤ |speed| ≤ 1` it yields the 8-byte frame
whose direction-motor byte is the direction nibble (forward 0x00, reverse
0x80) plus the motor id, whose speed byte is the floor of the linear map of
`|speed|` from [0,1] onto [0x60, 0xFF] (so it stays within [0x60, 0xFF]),
followed by the fixed ramp trailer 0x01 0x2C; the linear map sends 0 to 0x60
and 1 to 0xFF. -/
theorem sendMotorDirect_spec (motorId : Nat) (speed : ℚ)
    (hm : motorId < 16) (hs : |speed| ≤ 1) :
    (|speed| < 1/20 →
      sendMotorDirect motorId speed = [0x27, 0x00, 0x05, 0x44, motorId, 0x00, 0x00, 0x00]) ∧
    (1/20 ≤ |speed| →
      sendMotorDirect motorId speed =
        [0x27, 0x00, 0x05, 0x44, (if 0 < speed then 0x00 else 0x80) + motorId,
          (⌊(96 : ℚ) + |speed| * 159⌋).toNat, 0x01, 0x2C] ∧
      0x60 ≤ (⌊(96 : ℚ) + |speed| * 159⌋).toNat ∧
      (⌊(96 : ℚ) + |speed| * 159⌋).toNat ≤ 0xFF) ∧
    motorByteSpeed 0 = 0x60 ∧ motorByteSpeed 1 = 0xFF := by
  refine ⟨?_, ?_, ?_, ?_⟩
  · intro h
    unfold sendMotorDirect
    rw [if_pos h]
    rfl
  · intro h
    have hnot : ¬ |speed| < 1/20 := not_lt.mpr h
    have hmag : (0 : ℚ) ≤ |speed| := abs_nonneg speed
    constructor
    · unfold sendMotorDirect
      rw [if_neg hnot]
      have hb : ((0x60 : ℚ) + |speed| * (0xFF - 0x60)) = (96 : ℚ) + |speed| * 159 := by
        norm_num
      have hdm : Nat.lor (if speed > 0 then 0x00 else 0x80) motorId =
          (if 0 < speed then 0x00 else 0x80) + motorId := by
        by_cases hp : 0 < speed
        · simp only [hp, if_true, gt_iff_lt]
          exact (lor_direction_nibble motorId hm).2.trans (by omega)
        · simp only [hp, if_false, gt_iff_lt]
          exact (lor_direction_nibble motorId hm).1
      simp only [motorByteSpeed, hb, hdm]
    · have hlb : (96 : ℤ) ≤ ⌊(96 : ℚ) + |speed| * 159⌋ := by
        rw [Int.le_floor]
        push_cast
        nlinarith
      have hub : ⌊(96 : ℚ) + |speed| * 159⌋ ≤ 255 := by
        have hle : ((96 : ℚ) + |speed| * 159) ≤ 255 := by nlinarith
        calc ⌊(96 : ℚ) + |speed| * 159⌋ ≤ ⌊(255 : ℚ)⌋ := Int.floor_le_floor hle
          _ = 255 := by norm_num
      constructor
      · omega
      · omega
  · unfold motorByteSpeed
    have h0 : ⌊(0x60 : ℚ) + 0 * (0xFF - 0x60)⌋ = 96 := by norm_num
    rw [h0]
    rfl
  · unfold motorByteSpeed
    have h : ⌊(0x60 : ℚ) + 1 * (0xFF - 0x60)⌋ = 255 := by
      norm_num
    rw [h]
    rfl

/-- Witness for C3: a reverse speed of magnitude 3/4 on the right motor
(id 1) yields direction-motor byte 0x81 and speed byte 215 = ⌊96 + 119.25⌋,
and a speed inside the deadzone yields the stop frame regardless of sign. -/
theorem sendMotorDirect_spec_witness :
    sendMotorDirect 1 (-(3/4 : ℚ)) = [0x27, 0x00, 0x05, 0x44, 0x81, 215, 0x01, 0x2C] ∧
    sendMotorDirect 0 (-(1/100 : ℚ)) = [0x27, 0x00, 0x05, 0x44, 0, 0x00, 0x00, 0x00] := by
  have habs : |(-(3/4 : ℚ))| = 3/4 := by
    rw [abs_neg]
    exact abs_of_nonneg (by norm_num)
  have habs2 : |(-(1/100 : ℚ))| = 1/100 := by
    rw [abs_neg]
    exact abs_of_nonneg (by norm_num)
  constructor
  · have h := ((sendMotorDirect_spec 1 (-(3/4 : ℚ)) (by norm_num)
      (by rw [habs]; norm_num)).2.1 (by rw [habs]; norm_num)).1
    rw [h, habs]
    have hf : ⌊(96 : ℚ) + (3/4) * 159⌋ = 215 := by
      rw [Int.floor_eq_iff]
      push_cast
      norm_num
    rw [if_neg (by norm_num), hf]
    rfl
  · have h := (sendMotorDirect_spec 0 (-(1/100 : ℚ)) (by norm_num)
      (by rw [habs2]; norm_num)).1 (by rw [habs2]; norm_num)
    exact h

/-- C4: `_write` never lets a failure escape: it is a total function into a
status value.  If the session is not connected it returns `false` and
attempts no transport write; the connection state is never mutated by a
write; and if the transport call raises, the result is `false` (with the
session left intact and usable). -/
theorem droidWrite_spec (c : DroidConn) (data : List Nat) (out : WriteOutcome) :
    (c.isConnected = false → droidWrite c data out = (false, c, [])) ∧
    (droidWrite c data out).2.1 = c ∧
    (out = WriteOutcome.raises → (droidWrite c data out).1 = false) := by
  refine ⟨?_, ?_, ?_⟩
  · intro h
    unfold droidWrite
    rw [if_pos h]
  · unfold droidWrite
    by_cases h : c.isConnected = false
    · rw [if_pos h]
    · rw [if_neg h]
      cases out <;> rfl
  · intro h
    subst h
    unfold droidWrite
    by_cases h : c.isConnected = false
    · rw [if_pos h]
    · rw [if_neg h]

/-- Witness for C4: a raising transport call on a connected session returns
`false` with the session unchanged, and a write on a disconnected session
returns `false` with no transport attempt. -/
theorem droidWrite_spec_witness :
    droidWrite ⟨some true⟩ [0x22, 0x20, 0x01, 0x42] WriteOutcome.raises =
      (false, ⟨some true⟩, [[0x22, 0x20, 0x01, 0x42]]) ∧
    droidWrite ⟨none⟩ [0x22] WriteOutcome.ok = (false, ⟨none⟩, []) := by
  constructor
  · have h1 := (droidWrite_spec ⟨some true⟩ [0x22, 0x20, 0x01, 0x42] WriteOutcome.raises).2.2 rfl
    have h2 := (droidWrite_spec ⟨some true⟩ [0x22, 0x20, 0x01, 0x42] WriteOutcome.raises).2.1
    have : droidWrite ⟨some true⟩ [0x22, 0x20, 0x01, 0x42] WriteOutcome.raises =
        (false, ⟨some true⟩, [[0x22, 0x20, 0x01, 0x42]]) := rfl
    exact this
  · exact (droidWrite_spec ⟨none⟩ [0x22] WriteOutcome.ok).1 rfl

-- ----------------------------------------------------------------------
-- Connect handshake: DroidConnection.connect (src/connect.py 45-69)
-- ----------------------------------------------------------------------

/-- `COMMANDS["LOGON"]` (src/dicts.py line 109). -/
def LOGON : List Nat := [0x22, 0x20, 0x01, 0x42]

/-- `COMMANDS["AUDIO_BASE"]` (src/dicts.py line 111). -/
def audioBase : List Nat := [0x27, 0x42, 0x0F, 0x44, 0x44, 0x00]

/-- Group-select frame written by `DroidConnection.send_audio`
(src/connect.py line 75). -/
def audioGroupFrame (g : Nat) : List Nat := audioBase ++ [0x1F, g]

/-- Clip-play frame written by `DroidConnection.send_audio`
(src/connect.py line 78). -/
def audioClipFrame (c : Nat) : List Nat := audioBase ++ [0x18, c]

/-- Names bound in the local scope of `DroidConnection.connect` when the
body of the handshake loop runs: the parameters and assigned locals, plus
the loop variable, which the source spells as the wildcard `_`
(src/connect.py line 59: `for _ in range(3):`). -/
def connectLocalNames : List String := ["self", "mac", "device", "_"]

/-- Module-level names of src/connect.py visible inside the method
(imports and the two classes). -/
def connectModuleNames : List String :=
  ["asyncio", "os", "random", "re", "sys", "threading", "time",
   "BleakClient", "BleakScanner", "CHARACTERISTICS", "COMMANDS", "AUDIO_GROUPS",
   "DroidConnection", "ConnectionManager"]

/-- Python name resolution for an identifier used inside
`DroidConnection.connect`: local scope, then module globals. -/
def connectNameResolves (n : String) : Bool :=
  connectLocalNames.contains n || connectModuleNames.contains n

/-- Exceptions that the `try` block of `connect` can observe. -/
inductive PyErr
  | nameError (n : String)
  | bleakConnectError
deriving DecidableEq

/-- Observable outcome of one `DroidConnection.connect` call: returned
boolean, transport frames written, and the exception caught by its
`except Exception` clause, if any. -/
structure ConnectRun where
  success : Bool
  writes : List (List Nat)
  caught : Option PyErr
deriving DecidableEq

/-- `DroidConnection.connect` (src/connect.py 45-69), parametrised by
whether discovery finds the device and whether `client.connect()` succeeds.
The first statement of the handshake loop is
`print(f"[BLE] Sending LOGON attempt {i+1}...")` (line 60); evaluating the
f-string requires the name `i`, and the loop variable is `_`, so the name
resolves only if `i` is a local or module name.  When it does not resolve,
Python raises `NameError` there — before the first `_write` of the LOGON
frame — and the `except Exception` clause catches it, clears the client and
returns `False`. -/
def droidConnect (deviceFound linkOpens : Bool) : ConnectRun :=
  if deviceFound = false then ⟨false, [], none⟩
  else if linkOpens = false then ⟨false, [], some PyErr.bleakConnectError⟩
  else if connectNameResolves "i" then
    ⟨true, [LOGON, LOGON, LOGON, audioGroupFrame 0, audioClipFrame 2], none⟩
  else
    ⟨false, [], some (PyErr.nameError "i")⟩

/-- C1: evaluation of `connect` at a successful discovery and link-open.
The unbound name `i` in the handshake loop's print statement raises
`NameError` before any LOGON frame is written, so the session writes zero
LOGON frames, performs no audio command, and `connect` returns `False` —
contradicting the specified three LOGON writes followed by one audio cue
and a Connected result. -/
theorem droidConnect_logon_name_bug :
    droidConnect true true = ⟨false, [], some (PyErr.nameError "i")⟩ ∧
    (droidConnect true true).writes.count LOGON = 0 ∧
    connectNameResolves "i" = false := by
  exact ⟨rfl, rfl, rfl⟩

-- ----------------------------------------------------------------------
-- Advertising idempotence: BluetoothCtl.broadcast_mfg (src/bluetoothctl.py 183-199)
-- ----------------------------------------------------------------------

/-- One line submitted to the bluetoothctl command queue by `_send`. -/
inductive BtCmd
  | advertiseOff
  | menuAdvertise
  | clear
  | manufacturer (id dat : String)
  | back
  | advertiseOn
deriving DecidableEq

/-- State of `BluetoothCtl` relevant to advertising.  `currentMfgPayload`
is `none` while the Python attribute `current_mfg_payload` has never been
assigned (reading it raises `AttributeError`); `some none` after
`stop_advertising` assigned `None`; `some (some p)` after a broadcast
assigned the payload string `p`. -/
structure BtState where
  currentMfgPayload : Option (Option String)
deriving DecidableEq

/-- The full advertise-restart sequence `broadcast_mfg` submits
(src/bluetoothctl.py 188-193). -/
def advertiseRestartSeq (mfgId mfgData : String) : List BtCmd :=
  [BtCmd.advertiseOff, BtCmd.menuAdvertise, BtCmd.clear,
   BtCmd.manufacturer mfgId mfgData, BtCmd.back, BtCmd.advertiseOn]

/-- `BluetoothCtl.broadcast_mfg` (src/bluetoothctl.py 183-195): returns
`error` when reading the never-assigned attribute raises, otherwise the new
state and the lines submitted to the transport.  The guard returns early,
submitting nothing, when the assembled payload equals the last one sent. -/
def broadcastMfg (s : BtState) (mfgId mfgData : String) :
    Except Unit (BtState × List BtCmd) :=
  let payload := mfgId ++ ":" ++ mfgData
  match s.currentMfgPayload with
  | none => Except.error ()
  | some cur =>
    if cur = some payload then Except.ok (s, [])
    else Except.ok (⟨some (some payload)⟩, advertiseRestartSeq mfgId mfgData)

/-- `BluetoothCtl.stop_advertising` (src/bluetoothctl.py 197-199). -/
def stopAdvertising (_s : BtState) : BtState × List BtCmd :=
  (⟨some none⟩, [BtCmd.advertiseOff])

/-- C2: beacon broadcast is idempotent in the assembled payload.  From any
state whose recorded last-sent payload differs from the assembled one
(e.g. right after `stop_advertising`), the first broadcast submits exactly
the advertise-restart sequence (advertise off / clear / set manufacturer
data / advertise on) once, and a second broadcast assembling the identical
payload submits nothing and leaves the state unchanged. -/
theorem broadcastMfg_idempotent (cur : Option String) (mfgId mfgData : String)
    (h : cur ≠ some (mfgId ++ ":" ++ mfgData)) :
    broadcastMfg ⟨some cur⟩ mfgId mfgData =
      Except.ok (⟨some (some (mfgId ++ ":" ++ mfgData))⟩, advertiseRestartSeq mfgId mfgData) ∧
    broadcastMfg ⟨some (some (mfgId ++ ":" ++ mfgData))⟩ mfgId mfgData =
      Except.ok (⟨some (some (mfgId ++ ":" ++ mfgData))⟩, []) := by
  constructor
  · unfold broadcastMfg
    simp only []
    rw [if_neg h]
  · unfold broadcastMfg
    simp

/-- Witness for C2: from the post-`stop_advertising` state, broadcasting the
Droid Depot location payload twice submits one restart sequence and then
nothing. -/
theorem broadcastMfg_idempotent_witness :
    broadcastMfg ⟨some none⟩ "0x0183" "0x0a 0x04 0x05 0x02 0xa6 0x01" =
      Except.ok (⟨some (some ("0x0183" ++ ":" ++ "0x0a 0x04 0x05 0x02 0xa6 0x01"))⟩,
        advertiseRestartSeq "0x0183" "0x0a 0x04 0x05 0x02 0xa6 0x01") ∧
    broadcastMfg ⟨some (some ("0x0183" ++ ":" ++ "0x0a 0x04 0x05 0x02 0xa6 0x01"))⟩
        "0x0183" "0x0a 0x04 0x05 0x02 0xa6 0x01" =
      Except.ok (⟨some (some ("0x0183" ++ ":" ++ "0x0a 0x04 0x05 0x02 0xa6 0x01"))⟩, []) :=
  broadcastMfg_idempotent none "0x0183" "0x0a 0x04 0x05 0x02 0xa6 0x01" (by simp)

-- ----------------------------------------------------------------------
-- Beacon refresh cadence: DroidBeacon.start_loop (src/app/beacon.py 79-103)
-- ----------------------------------------------------------------------

/-- `LOCATIONS` (src/dicts.py 39-49), as (audio-group byte, cooldown byte);
the display-name component of each tuple does not influence any behaviour
modelled here and is omitted. -/
def LOCATIONS (id : Nat) : Option (Nat × Nat) :=
  match id with
  | 1 => some (0x01, 0x02)
  | 2 => some (0x02, 0x02)
  | 3 => some (0x03, 0x02)
  | 4 => some (0x04, 0x02)
  | 5 => some (0x05, 0x02)
  | 6 => some (0x06, 0x02)
  | 7 => some (0x07, 0x02)
  | 8 => some (0x05, 0xFF)
  | 9 => some (0x07, 0xFF)
  | _ => none

/-- `DROIDS[faction].get(target_id)["id"]` (src/dicts.py 61-86); the display
name is omitted as above. -/
def droidLookup (faction : String) (id : Nat) : Option Nat :=
  match faction, id with
  | "Scoundrel", 1 => some 0x01
  | "Scoundrel", 2 => some 0x02
  | "Scoundrel", 3 => some 0x04
  | "Scoundrel", 4 => some 0x07
  | "Scoundrel", 5 => some 0x09
  | "Scoundrel", 6 => some 0x0D
  | "Scoundrel", 7 => some 0x0F
  | "Scoundrel", 8 => some 0x10
  | "Resistance", 1 => some 0x03
  | "Resistance", 2 => some 0x06
  | "Resistance", 3 => some 0x0A
  | "Resistance", 4 => some 0x0B
  | "Resistance", 5 => some 0x0C
  | "Resistance", 6 => some 0x0E
  | "Resistance", 7 => some 0x01
  | "Resistance", 8 => some 0x01
  | "First Order", 1 => some 0x05
  | "First Order", 2 => some 0x08
  | _, _ => none

/-- Wait time (seconds) computed by one iteration of the refresh loop in
`DroidBeacon.start_loop` (src/app/beacon.py 86-99): `wait_time = 1.5`
unless the target is found, in which case location beacons use
`max(1.0, cooldown * 5)` and simulated-droid beacons use `2.0`. -/
def beaconWaitTime (targetType : String) (faction : String) (targetId : Nat) : ℚ :=
  if targetType = "location" then
    match LOCATIONS targetId with
    | some d => max 1 ((d.2 : ℚ) * 5)
    | none => 3/2
  else if targetType = "droid" then
    match droidLookup faction targetId with
    | some _ => 2
    | none => 3/2
  else 3/2

/-- C7: while the broadcaster is active, location beacons refresh every
`max(1.0, cooldownByte * 5)` seconds, simulated-droid beacons every fixed
2.0 seconds, and in particular location zone 5 (Droid Depot, cooldown byte
2) refreshes every 10.0 seconds. -/
theorem beaconWaitTime_spec :
    (∀ (fac : String) (id g cd : Nat), LOCATIONS id = some (g, cd) →
      beaconWaitTime "location" fac id = max 1 ((cd : ℚ) * 5)) ∧
    (∀ (fac : String) (id d : Nat), droidLookup fac id = some d →
      beaconWaitTime "droid" fac id = 2) ∧
    (∀ fac : String, LOCATIONS 5 = some (0x05, 0x02) ∧
      beaconWaitTime "location" fac 5 = 10) := by
  refine ⟨?_, ?_, ?_⟩
  · intro fac id g cd hloc
    unfold beaconWaitTime
    rw [if_pos rfl, hloc]
  · intro fac id d hd
    unfold beaconWaitTime
    rw [if_neg (by simp), if_pos rfl, hd]
  · intro fac
    refine ⟨rfl, ?_⟩
    unfold beaconWaitTime
    rw [if_pos rfl]
    show max 1 ((2 : ℚ) * 5) = 10
    rw [max_eq_right (by norm_num)]
    norm_num

/-- Witness for C7: zone 1 (cooldown byte 2) gives the interval
`max(1, 10) = 10`, the First Order droid personality 2 gives 2.0 seconds,
and zone 5 gives 10.0 seconds. -/
theorem beaconWaitTime_spec_witness :
    beaconWaitTime "location" "Scoundrel" 1 = max 1 ((2 : ℚ) * 5) ∧
    beaconWaitTime "droid" "First Order" 2 = 2 ∧
    beaconWaitTime "location" "Scoundrel" 5 = 10 :=
  ⟨beaconWaitTime_spec.1 "Scoundrel" 1 1 2 rfl,
   beaconWaitTime_spec.2.1 "First Order" 2 0x08 rfl,
   (beaconWaitTime_spec.2.2 "Scoundrel").2⟩

-- ----------------------------------------------------------------------
-- Bounded response queue: BluetoothCtl._reader (src/bluetoothctl.py 98-119)
-- ----------------------------------------------------------------------

/-- `queue.Queue(maxsize=500)` (src/bluetoothctl.py line 21). -/
def QUEUE_MAX : Nat := 500

/-- One read line handled by `BluetoothCtl._reader` (src/bluetoothctl.py
110-117): `put_nowait` raises `Full` when the queue holds `maxsize`
entries, in which case the reader drops the oldest entry with `get_nowait`
and enqueues the new line. -/
def readerStep (q : List String) (line : String) : List String :=
  if QUEUE_MAX ≤ q.length then q.drop 1 ++ [line] else q ++ [line]

/-- The reader thread folded over the lines it reads, starting from the
empty queue. -/
def readerRun (lines : List String) : List String :=
  lines.foldl readerStep []

/-- C9: the inbound response buffer is bounded and never blocks: after any
sequence of reads the queue holds at most `QUEUE_MAX` entries, and a line
read while the queue is full replaces the oldest queued entry
(drop-oldest backpressure), keeping the size at the bound. -/
theorem readerQueue_bounded_dropOldest :
    (∀ lines : List String, (readerRun lines).length ≤ QUEUE_MAX) ∧
    (∀ (q : List String) (line : String), q.length = QUEUE_MAX →
      readerStep q line = q.drop 1 ++ [line] ∧
      (readerStep q line).length = QUEUE_MAX) := by
  have hstep : ∀ (q : List String) (line : String),
      q.length ≤ QUEUE_MAX → (readerStep q line).length ≤ QUEUE_MAX := by
    intro q line hq
    unfold readerStep
    simp only [QUEUE_MAX] at hq ⊢
    by_cases h : 500 ≤ q.length
    · rw [if_pos h]
      simp only [List.length_append, List.length_drop, List.length_singleton]
      omega
    · rw [if_neg h]
      simp only [List.length_append, List.length_singleton]
      omega
  constructor
  · intro lines
    unfold readerRun
    have key : ∀ (ls : List String) (q : List String),
        q.length ≤ QUEUE_MAX → (ls.foldl readerStep q).length ≤ QUEUE_MAX := by
      intro ls
      induction ls with
      | nil => intro q hq; simpa using hq
      | cons l rest ih =>
        intro q hq
        exact ih (readerStep q l) (hstep q l hq)
    exact key lines [] (by simp [QUEUE_MAX])
  · intro q line hq
    have hfull : QUEUE_MAX ≤ q.length := le_of_eq hq.symm
    constructor
    · unfold readerStep
      rw [if_pos hfull]
    · unfold readerStep
      rw [if_pos hfull]
      simp only [List.length_append, List.length_drop, List.length_singleton]
      simp only [QUEUE_MAX] at hq ⊢
      omega

/-- Witness for C9: a full queue of 500 entries receiving one more line
drops the oldest entry, and the size stays exactly 500. -/
theorem readerQueue_bounded_dropOldest_witness :
    readerStep (List.replicate 500 "Discovery started") "NEW" =
      (List.replicate 500 "Discovery started").drop 1 ++ ["NEW"] ∧
    (readerStep (List.replicate 500 "Discovery started") "NEW").length = QUEUE_MAX :=
  readerQueue_bounded_dropOldest.2 (List.replicate 500 "Discovery started") "NEW"
    (by rw [List.length_replicate, QUEUE_MAX])

-- ----------------------------------------------------------------------
-- Session exclusivity: ConnectionManager.connect_droid (src/connect.py 111-121)
-- ----------------------------------------------------------------------

/-- State of `ConnectionManager` relevant to connect requests
(src/connect.py 96-104).  `inFlight` is ghost instrumentation counting
spawned, not yet finished, connect threads. -/
structure MgrState where
  isConnecting : Bool
  lastError : Option String
  activeMac : Option String
  activeName : Option String
  inFlight : Nat
deriving DecidableEq

/-- A side effect of `connect_droid`: starting the background connect
thread (src/connect.py line 121). -/
inductive MgrEffect
  | spawnConnectThread (mac nm : String)
deriving DecidableEq

/-- `ConnectionManager.connect_droid` (src/connect.py 111-121): an early
return while `is_connecting` is set, otherwise flag setting and thread
spawn. -/
def connectDroid (s : MgrState) (mac nm : String) : MgrState × List MgrEffect :=
  if s.isConnecting then (s, [])
  else ({ isConnecting := true, lastError := none, activeMac := some mac,
          activeName := some nm, inFlight := s.inFlight + 1 },
        [MgrEffect.spawnConnectThread mac nm])

/-- The `finally` clause of `ConnectionManager._connect_thread`
(src/connect.py 145-149): the thread clears `is_connecting` as it ends. -/
def connectThreadFinish (s : MgrState) : MgrState :=
  { s with isConnecting := false, inFlight := s.inFlight - 1 }

/-- Events the connect machinery reacts to: a connect request from the UI,
or the background thread finishing (success, failure or timeout alike). -/
inductive MgrEv
  | request (mac nm : String)
  | threadDone

/-- One step of the connect-request state machine. -/
def mgrStep (s : MgrState) (e : MgrEv) : MgrState :=
  match e with
  | MgrEv.request mac nm => (connectDroid s mac nm).1
  | MgrEv.threadDone => connectThreadFinish s

/-- `ConnectionManager.__init__` state (src/connect.py 96-104). -/
def mgrInit : MgrState := ⟨false, none, none, none, 0⟩

/-- Exclusivity invariant: at most one connect thread — hence at most one
session that is Connecting or Connected — exists, and `is_connecting`
tracks exactly whether one is in flight. -/
def mgrInv (s : MgrState) : Prop :=
  s.inFlight ≤ 1 ∧ (s.isConnecting = true ↔ s.inFlight = 1)

/-- C5: a connect request issued while a connect is in flight is rejected
with no state change and no transport-side effects, and consequently along
any sequence of connect requests and thread completions at most one session
is ever Connecting or Connected. -/
theorem connectDroid_exclusive :
    (∀ (s : MgrState) (mac nm : String),
      s.isConnecting = true → connectDroid s mac nm = (s, [])) ∧
    (∀ evs : List MgrEv, mgrInv (evs.foldl mgrStep mgrInit)) := by
  have hstep : ∀ (s : MgrState) (e : MgrEv), mgrInv s → mgrInv (mgrStep s e) := by
    intro s e hs
    obtain ⟨h1, h2⟩ := hs
    cases e with
    | request mac nm =>
      show mgrInv (connectDroid s mac nm).1
      unfold connectDroid
      by_cases hc : s.isConnecting
      · rw [if_pos hc]
        exact ⟨h1, h2⟩
      · rw [if_neg hc]
        have hflag : s.isConnecting = false := by
          cases hb : s.isConnecting
          · rfl
          · exact absurd hb hc
        have hz : s.inFlight = 0 := by
          rcases Nat.lt_or_ge s.inFlight 1 with hlt | hge
          · omega
          · have he1 : s.inFlight = 1 := by omega
            have := h2.mpr he1
            rw [hflag] at this
            exact absurd this (by simp)
        constructor
        · simp [hz]
        · simp [hz]
    | threadDone =>
      show mgrInv (connectThreadFinish s)
      unfold connectThreadFinish mgrInv
      constructor
      · simp only []
        omega
      · constructor
        · intro hfalse
          exact absurd hfalse (by simp)
        · intro hn
          simp only [] at hn
          omega
  have key : ∀ (evs : List MgrEv) (s : MgrState),
      mgrInv s → mgrInv (evs.foldl mgrStep s) := by
    intro evs
    induction evs with
    | nil => intro s hs; simpa using hs
    | cons e rest ih =>
      intro s hs
      exact ih (mgrStep s e) (hstep s e hs)
  constructor
  · intro s mac nm h
    unfold connectDroid
    rw [if_pos h]
  · intro evs
    exact key evs mgrInit (by constructor <;> simp [mgrInit])

/-- Witness for C5: a request arriving while `is_connecting` is set leaves
the manager untouched and spawns nothing, and a request-then-finish trace
keeps at most one connect in flight. -/
theorem connectDroid_exclusive_witness :
    connectDroid ⟨true, none, some "AA:BB:CC:DD:EE:FF", some "D-O", 1⟩ "11:22:33:44:55:66" "R2" =
      (⟨true, none, some "AA:BB:CC:DD:EE:FF", some "D-O", 1⟩, []) ∧
    mgrInv ([MgrEv.request "AA:BB:CC:DD:EE:FF" "D-O", MgrEv.threadDone].foldl mgrStep mgrInit) :=
  ⟨connectDroid_exclusive.1 ⟨true, none, some "AA:BB:CC:DD:EE:FF", some "D-O", 1⟩
      "11:22:33:44:55:66" "R2" rfl,
   connectDroid_exclusive.2 [MgrEv.request "AA:BB:CC:DD:EE:FF" "D-O", MgrEv.threadDone]⟩

-- ----------------------------------------------------------------------
-- Motion shaper: RemoteControl (src/app/remote.py)
-- ----------------------------------------------------------------------

/-- Clamp to [-1, 1]: `max(-1.0, min(1.0, speed))` (src/app/remote.py
line 102). -/
def clampUnit (x : ℚ) : ℚ := max (-1) (min 1 x)

/-- `RemoteControl._update_motor` (src/app/remote.py 99-109) for one
generic channel: first component is the command value emitted (already
clamped), if any; second is the stored last value (the unclamped input). -/
def updateMotor (last v : ℚ) : Option ℚ × ℚ :=
  if |v - last| > 1/20 ∨ (v = 0 ∧ last ≠ 0) then (some (clampUnit v), v)
  else (none, last)

/-- `ConnectionManager.bb_drive` packet (src/connect.py 223-228). -/
def bbDriveFrame (heading spd : Nat) : List Nat :=
  [0x2B, 0x42, 0x0F, 0x48, 0x44, 0x05, heading, spd, 0x01, 0x90, 0x00, 0x00]

/-- `ConnectionManager.bb_rotate` packet (src/connect.py 230-235). -/
def bbRotateFrame (dir spd : Nat) : List Nat :=
  [0x2B, 0x42, 0x0F, 0x48, 0x44, 0x04, dir, spd, 0x00, 0x05, 0x00, 0x00]

/-- Drive-channel part of `RemoteControl._handle_bb_movement`
(src/app/remote.py 76-84), with `BB_DRIVE_LIMIT = 0.8`: emitted frames and
the new stored drive value. -/
def bbDriveStep (lastD d : ℚ) : List (List Nat) × ℚ :=
  if |d| > 1/20 then
    if |d - lastD| > 1/50 then
      ([bbDriveFrame (if d > 0 then 0x00 else 0x80) ((⌊|d| * 255 * (4/5)⌋).toNat)], d)
    else ([], lastD)
  else if lastD ≠ 0 then ([bbDriveFrame 0x00 0x00], 0)
  else ([], lastD)

/-- Head-channel part of `RemoteControl._handle_bb_movement`
(src/app/remote.py 86-94), with `BB_TURN_LIMIT = 0.35`. -/
def bbRotateStep (lastH h : ℚ) : List (List Nat) × ℚ :=
  if |h| > 1/20 then
    if |h - lastH| > 1/50 then
      ([bbRotateFrame (if h > 0 then 0x00 else 0xFF) ((⌊|h| * 255 * (7/20)⌋).toNat)], h)
    else ([], lastH)
  else if lastH ≠ 0 then ([bbRotateFrame 0x00 0x00], 0)
  else ([], lastH)

/-- `RemoteControl._handle_bb_movement` (src/app/remote.py 66-94): the
both-zero early stop, then the two per-channel blocks. -/
def handleBBMovement (lastD lastH d h : ℚ) : List (List Nat) × ℚ × ℚ :=
  if d = 0 ∧ h = 0 then
    if lastD ≠ 0 ∨ lastH ≠ 0 then ([bbDriveFrame 0x00 0x00], 0, 0)
    else ([], lastD, lastH)
  else
    ((bbDriveStep lastD d).1 ++ (bbRotateStep lastH h).1,
      (bbDriveStep lastD d).2, (bbRotateStep lastH h).2)

/-- `RemoteControl._apply_intents` for differential-drive ("R-") profiles
(src/app/remote.py 50-59), for a profile carrying THROTTLE and STEER but no
THROTTLE_L/THROTTLE_R overrides (`tl`/`tr` default to the throttle):
first component is the triple of emitted (clamped) motor values, second the
stored last values. -/
def applyIntentsDiff (lastL lastR lastH t s h : ℚ) (tl tr : Option ℚ) :
    (Option ℚ × Option ℚ × Option ℚ) × ℚ × ℚ × ℚ :=
  let tlv := tl.getD t
  let trv := tr.getD t
  let l := updateMotor lastL (tlv + s)
  let r := updateMotor lastR (trv - s)
  let hd := updateMotor lastH h
  ((l.1, r.1, hd.1), l.2, r.2, hd.2)

/-- Modelled from the spec words of C6, for comparison with the code: "a
new motor command is emitted if and only if the absolute difference exceeds
[the threshold], or the value crosses to/from exactly zero". -/
def claimedHysteresisEmits (threshold last v : ℚ) : Prop :=
  |v - last| > threshold ∨ (v = 0 ∧ last ≠ 0) ∨ (last = 0 ∧ v ≠ 0)

/-- Counterexample to C6 as stated: on a generic channel whose stored value
is exactly zero, a new value of 0.04 "crosses from exactly zero", so the
claimed condition demands a command, but `_update_motor` emits nothing
because `|0.04 - 0| ≤ 0.05` and `0.04 ≠ 0`. -/
theorem updateMotor_crossFromZero_counterexample :
    claimedHysteresisEmits (1/20) 0 (1/25) ∧ (updateMotor 0 (1/25)).1 = none := by
  constructor
  · exact Or.inr (Or.inr ⟨rfl, by norm_num⟩)
  · unfold updateMotor
    rw [if_neg]
    rintro (habs | ⟨hz, -⟩)
    · rw [sub_zero, abs_of_nonneg (by norm_num)] at habs
      norm_num at habs
    · norm_num at hz

/-- C6 (amended): for generic motor channels a new command is emitted iff
`|Δ| > 0.05` or the value becomes exactly zero from a nonzero stored value
(crossing away from zero does not, by itself, emit); for sphere-type
drive/heading channels a command is emitted iff the new magnitude exceeds
0.05 and `|Δ| > 0.02`, or the new magnitude is at most 0.05 while the
stored value was nonzero (a stop command); when drive and head are both
exactly zero a single stop is emitted iff either stored value was nonzero.
The sequence 0.40 then 0.43 on a generic channel emits nothing and 0.40
then 0.46 emits exactly one command. -/
theorem motionHysteresis_amended :
    (∀ last v : ℚ, (updateMotor last v).1.isSome = true ↔
      (|v - last| > 1/20 ∨ (v = 0 ∧ last ≠ 0))) ∧
    (∀ lastD d : ℚ, (bbDriveStep lastD d).1 ≠ [] ↔
      ((|d| > 1/20 ∧ |d - lastD| > 1/50) ∨ (¬ |d| > 1/20 ∧ lastD ≠ 0))) ∧
    (∀ lastH h : ℚ, (bbRotateStep lastH h).1 ≠ [] ↔
      ((|h| > 1/20 ∧ |h - lastH| > 1/50) ∨ (¬ |h| > 1/20 ∧ lastH ≠ 0))) ∧
    (∀ lastD lastH : ℚ, handleBBMovement lastD lastH 0 0 =
      ((if lastD = 0 ∧ lastH = 0 then [] else [bbDriveFrame 0x00 0x00]), 0, 0)) ∧
    (updateMotor (2/5) (43/100)).1 = none ∧
    (updateMotor (2/5) (46/100)).1 = some (clampUnit (46/100)) := by
  refine ⟨?_, ?_, ?_, ?_, ?_, ?_⟩
  · intro last v
    unfold updateMotor
    by_cases hc : |v - last| > 1/20 ∨ (v = 0 ∧ last ≠ 0)
    · rw [if_pos hc]
      exact ⟨fun _ => hc, fun _ => rfl⟩
    · rw [if_neg hc]
      exact ⟨fun habs => by simp at habs, fun hcond => absurd hcond hc⟩
  · intro lastD d
    unfold bbDriveStep
    by_cases h1 : |d| > 1/20
    · rw [if_pos h1]
      by_cases h2 : |d - lastD| > 1/50
      · rw [if_pos h2]
        exact ⟨fun _ => Or.inl ⟨h1, h2⟩, fun _ => by simp⟩
      · rw [if_neg h2]
        constructor
        · intro hne
          exact absurd rfl hne
        · rintro (⟨-, h2a⟩ | ⟨hn1, -⟩)
          · exact absurd h2a h2
          · exact absurd h1 hn1
    · rw [if_neg h1]
      by_cases h3 : lastD ≠ 0
      · rw [if_pos h3]
        exact ⟨fun _ => Or.inr ⟨h1, h3⟩, fun _ => by simp⟩
      · rw [if_neg h3]
        constructor
        · intro hne
          exact absurd rfl hne
        · rintro (⟨hd1, -⟩ | ⟨-, h3a⟩)
          · exact absurd hd1 h1
          · exact absurd h3a h3
  · intro lastH h
    unfold bbRotateStep
    by_cases h1 : |h| > 1/20
    · rw [if_pos h1]
      by_cases h2 : |h - lastH| > 1/50
      · rw [if_pos h2]
        exact ⟨fun _ => Or.inl ⟨h1, h2⟩, fun _ => by simp⟩
      · rw [if_neg h2]
        constructor
        · intro hne
          exact absurd rfl hne
        · rintro (⟨-, h2a⟩ | ⟨hn1, -⟩)
          · exact absurd h2a h2
          · exact absurd h1 hn1
    · rw [if_neg h1]
      by_cases h3 : lastH ≠ 0
      · rw [if_pos h3]
        exact ⟨fun _ => Or.inr ⟨h1, h3⟩, fun _ => by simp⟩
      · rw [if_neg h3]
        constructor
        · intro hne
          exact absurd rfl hne
        · rintro (⟨hd1, -⟩ | ⟨-, h3a⟩)
          · exact absurd hd1 h1
          · exact absurd h3a h3
  · intro lastD lastH
    unfold handleBBMovement
    rw [if_pos ⟨rfl, rfl⟩]
    by_cases hz : lastD = 0 ∧ lastH = 0
    · have hno : ¬ (lastD ≠ 0 ∨ lastH ≠ 0) := by
        push_neg
        exact hz
      rw [if_neg hno, if_pos hz]
      obtain ⟨hd0, hh0⟩ := hz
      rw [hd0, hh0]
    · rw [if_pos (not_and_or.mp hz), if_neg hz]
  · have hno : ¬ (|(43 : ℚ)/100 - 2/5| > 1/20 ∨ ((43 : ℚ)/100 = 0 ∧ (2 : ℚ)/5 ≠ 0)) := by
      rintro (habs | ⟨hzz, -⟩)
      · rw [show (43 : ℚ)/100 - 2/5 = 3/100 by norm_num,
          abs_of_nonneg (by norm_num)] at habs
        norm_num at habs
      · norm_num at hzz
    unfold updateMotor
    rw [if_neg hno]
  · have hyes : |(46 : ℚ)/100 - 2/5| > 1/20 ∨ ((46 : ℚ)/100 = 0 ∧ (2 : ℚ)/5 ≠ 0) := by
      left
      rw [show (46 : ℚ)/100 - 2/5 = 3/50 by norm_num,
        abs_of_nonneg (by norm_num)]
      norm_num
    unfold updateMotor
    rw [if_pos hyes]

/-- Witness for C6 (amended): a generic step from 0 to 1 emits (threshold
exceeded), a sphere drive step from 0 to 0.04 emits nothing (magnitude at
most 0.05 and stored value zero), and a sphere drive step from 0.5 to 0.04
emits (the stop branch). -/
theorem motionHysteresis_amended_witness :
    (updateMotor 0 1).1.isSome = true ∧
    ¬ (bbDriveStep 0 (1/25)).1 ≠ [] ∧
    (bbDriveStep (1/2) (1/25)).1 ≠ [] := by
  refine ⟨?_, ?_, ?_⟩
  · refine (motionHysteresis_amended.1 0 1).mpr (Or.inl ?_)
    rw [sub_zero, abs_of_nonneg (by norm_num)]
    norm_num
  · intro hne
    have h := (motionHysteresis_amended.2.1 0 (1/25)).mp hne
    have habs : |(1 : ℚ)/25| = 1/25 := abs_of_nonneg (by norm_num)
    rcases h with ⟨h1, -⟩ | ⟨-, h3⟩
    · rw [habs] at h1
      norm_num at h1
    · exact h3 rfl
  · refine (motionHysteresis_amended.2.1 (1/2) (1/25)).mpr (Or.inr ⟨?_, by norm_num⟩)
    rw [abs_of_nonneg (by norm_num)]
    norm_num

/-- C8: on a differential-drive profile tick the value sent as the left
motor command, whenever one is emitted, is `throttle + steer` clamped to
[-1, 1], and the value sent as the right motor command is
`throttle - steer` clamped to [-1, 1]. -/
theorem applyIntents_diff_clamped (lastL lastR lastH t s h v w : ℚ) :
    ((applyIntentsDiff lastL lastR lastH t s h none none).1.1 = some v →
      v = clampUnit (t + s) ∧ -1 ≤ v ∧ v ≤ 1) ∧
    ((applyIntentsDiff lastL lastR lastH t s h none none).1.2.1 = some w →
      w = clampUnit (t - s) ∧ -1 ≤ w ∧ w ≤ 1) := by
  have hclamp : ∀ x : ℚ, -1 ≤ clampUnit x ∧ clampUnit x ≤ 1 := by
    intro x
    constructor
    · exact le_max_left _ _
    · exact max_le (by norm_num) (min_le_left _ _)
  constructor
  · intro hv
    have hv2 : (updateMotor lastL (t + s)).1 = some v := hv
    unfold updateMotor at hv2
    by_cases hc : |t + s - lastL| > 1/20 ∨ (t + s = 0 ∧ lastL ≠ 0)
    · rw [if_pos hc] at hv2
      have hsome : some (clampUnit (t + s)) = some v := hv2
      have h1 : clampUnit (t + s) = v := by injection hsome
      exact ⟨h1.symm, h1 ▸ hclamp (t + s)⟩
    · rw [if_neg hc] at hv2
      exact absurd hv2 (by simp)
  · intro hw
    have hw2 : (updateMotor lastR (t - s)).1 = some w := hw
    unfold updateMotor at hw2
    by_cases hc : |t - s - lastR| > 1/20 ∨ (t - s = 0 ∧ lastR ≠ 0)
    · rw [if_pos hc] at hw2
      have hsome : some (clampUnit (t - s)) = some w := hw2
      have h1 : clampUnit (t - s) = w := by injection hsome
      exact ⟨h1.symm, h1 ▸ hclamp (t - s)⟩
    · rw [if_neg hc] at hw2
      exact absurd hw2 (by simp)

/-- Witness for C8: throttle 1/2 and steer 1/4 from rest emit left 3/4 and
right 1/4, each equal to the clamped sum/difference and within [-1, 1]. -/
theorem applyIntents_diff_clamped_witness :
    ((3/4 : ℚ) = clampUnit ((1/2 : ℚ) + 1/4) ∧ -1 ≤ (3/4 : ℚ) ∧ (3/4 : ℚ) ≤ 1) ∧
    ((1/4 : ℚ) = clampUnit ((1/2 : ℚ) - 1/4) ∧ -1 ≤ (1/4 : ℚ) ∧ (1/4 : ℚ) ≤ 1) := by
  have hl : (applyIntentsDiff 0 0 0 (1/2) (1/4) 0 none none).1.1 = some (3/4 : ℚ) := by
    show (updateMotor 0 ((1/2 : ℚ) + 1/4)).1 = some (3/4 : ℚ)
    unfold updateMotor
    rw [if_pos]
    · have : clampUnit ((1/2 : ℚ) + 1/4) = 3/4 := by
        unfold clampUnit
        rw [min_eq_right (by norm_num), max_eq_right (by norm_num)]
        norm_num
      rw [this]
    · left
      rw [sub_zero, abs_of_nonneg (by norm_num)]
      norm_num
  have hr : (applyIntentsDiff 0 0 0 (1/2) (1/4) 0 none none).1.2.1 = some (1/4 : ℚ) := by
    show (updateMotor 0 ((1/2 : ℚ) - 1/4)).1 = some (1/4 : ℚ)
    unfold updateMotor
    rw [if_pos]
    · have : clampUnit ((1/2 : ℚ) - 1/4) = 1/4 := by
        unfold clampUnit
        rw [min_eq_right (by norm_num), max_eq_right (by norm_num)]
        norm_num
      rw [this]
    · left
      rw [sub_zero, abs_of_nonneg (by norm_num)]
      norm_num
  exact ⟨(applyIntents_diff_clamped 0 0 0 (1/2) (1/4) 0 (3/4) (1/4)).1 hl,
         (applyIntents_diff_clamped 0 0 0 (1/2) (1/4) 0 (3/4) (1/4)).2 hr⟩


-- ----------------------------------------------------------------------
-- Audio dispatch: ConnectionManager.run_action / _play_audio /
-- remote_sound_random (src/connect.py 151-183, 260-271)
-- ----------------------------------------------------------------------

/-- Timeline event of a scheduled `_play_audio` coroutine: flag mutation,
a transport write, or an `asyncio.sleep` of the given duration (seconds). -/
inductive AudioEv
  | flagSet
  | tx (frame : List Nat)
  | sleep (t : ℚ)
  | flagClear
deriving DecidableEq

/-- Timeline of `ConnectionManager._play_audio(group, clip)`
(src/connect.py 172-183) together with `DroidConnection.send_audio`
(src/connect.py 71-79): the flag is set, the group-select frame is written,
and if that write succeeds a 0.1 s settle gap and the clip-play frame
follow; the `finally` clause always sleeps the 0.2 s cooldown and only then
clears the flag. -/
def playAudioEvents (g c : Nat) (groupWriteOk : Bool) : List AudioEv :=
  [AudioEv.flagSet, AudioEv.tx (audioGroupFrame g)] ++
    (if groupWriteOk then [AudioEv.sleep (1/10), AudioEv.tx (audioClipFrame c)] else []) ++
    [AudioEv.sleep (1/5), AudioEv.flagClear]

/-- Audio-side state of `ConnectionManager` across the two threads: link
status, the `audio_in_progress` flag, and ghost instrumentation counting
scheduled-but-not-yet-started coroutines (`pending`, sitting in the event
loop's queue after `run_coroutine_threadsafe`) and started-but-not-yet
finished sequences (`running`). -/
structure AudioRace where
  connected : Bool
  audioInProgress : Bool
  pending : Nat
  running : Nat
deriving DecidableEq

/-- Events of the audio dispatch across both threads.  `uiAudio` and
`randomSound` are the control-thread request handlers; `coroStart` is the
event-loop thread beginning a scheduled `_play_audio` (the point where
src/connect.py line 174 sets the flag); `coroFinish` is its `finally`
completing (0.2 s cooldown, then the flag is cleared,
src/connect.py 180-183). -/
inductive AudioRaceEv
  | uiAudio (g c : Nat)
  | randomSound (g c : Nat)
  | coroStart (g c : Nat)
  | coroFinish

/-- One step of the audio dispatch.  The request handlers (`run_action`
with an Audio label, src/connect.py 151-164, and `remote_sound_random`,
src/connect.py 260-271) read `audio_in_progress` but mutate nothing: when
the guards pass they only submit the coroutine to the event loop, so the
request step increments `pending` and leaves the flag untouched — the flag
is set only when the scheduled coroutine later starts on the event-loop
thread.  A start emits the sequence's timeline up to the cooldown; the
finish emits the single flag-clear. -/
def audioRaceStep (s : AudioRace) (e : AudioRaceEv) : AudioRace × List AudioEv :=
  match e with
  | AudioRaceEv.uiAudio _ _ =>
    if s.connected = false then (s, [])
    else if s.audioInProgress then (s, [])
    else ({ s with pending := s.pending + 1 }, [])
  | AudioRaceEv.randomSound _ _ =>
    if s.connected = false then (s, [])
    else if s.audioInProgress then (s, [])
    else ({ s with pending := s.pending + 1 }, [])
  | AudioRaceEv.coroStart g c =>
    if s.pending = 0 then (s, [])
    else ({ s with pending := s.pending - 1, audioInProgress := true, running := s.running + 1 },
          (playAudioEvents g c true).dropLast)
  | AudioRaceEv.coroFinish =>
    if s.running = 0 then (s, [])
    else ({ s with audioInProgress := false, running := s.running - 1 },
          [AudioEv.flagClear])

/-- Audio state after `ConnectionManager.__init__` and a successful
connect: linked, flag clear, nothing scheduled or running. -/
def audioRaceInit : AudioRace := ⟨true, false, 0, 0⟩

/-- Folding the audio dispatch over an interleaved event trace. -/
def audioRaceRun (evs : List AudioRaceEv) : AudioRace :=
  evs.foldl (fun s e => (audioRaceStep s e).1) audioRaceInit

/-- Counterexample to C10 as stated: two requests arriving before the first
scheduled coroutine starts both find `audio_in_progress` still false and
are both accepted (`pending = 2`); once the event loop starts both
coroutines, two audio command sequences are in flight simultaneously
(`running = 2`), refuting "at most one audio command sequence is in flight
at any time".  The request handlers only schedule `_play_audio`; nothing
sets the flag until the coroutine runs on the event-loop thread. -/
theorem audioExclusive_counterexample :
    (audioRaceRun [AudioRaceEv.uiAudio 1 2, AudioRaceEv.randomSound 3 3]).pending = 2 ∧
    (audioRaceRun [AudioRaceEv.uiAudio 1 2, AudioRaceEv.randomSound 3 3,
      AudioRaceEv.coroStart 1 2, AudioRaceEv.coroStart 3 3]).running = 2 :=
  ⟨rfl, rfl⟩

/-- The serialized schedule: each accepted request's coroutine starts on
the event loop (setting the flag) before the next request arrives, and a
finish is the coroutine's `finally` completing.  Each step is a composition
of faithful `audioRaceStep` transitions. -/
inductive AudioSerialEv
  | request (g c : Nat)
  | complete

/-- One serialized-schedule step: a request immediately followed by the
start of whatever it scheduled. -/
def audioSerialStep (s : AudioRace) (e : AudioSerialEv) : AudioRace :=
  match e with
  | AudioSerialEv.request g c =>
    (audioRaceStep (audioRaceStep s (AudioRaceEv.uiAudio g c)).1
      (AudioRaceEv.coroStart g c)).1
  | AudioSerialEv.complete => (audioRaceStep s AudioRaceEv.coroFinish).1

/-- Folding the serialized schedule over a request/completion trace. -/
def audioSerialRun (evs : List AudioSerialEv) : AudioRace :=
  evs.foldl audioSerialStep audioRaceInit

/-- Under the serialized schedule nothing stays pending, at most one
sequence is in flight, and the flag tracks it exactly. -/
def audioSerialInv (s : AudioRace) : Prop :=
  s.pending = 0 ∧ s.running ≤ 1 ∧ (s.audioInProgress = true ↔ s.running = 1)

/-- C10 (amended): an audio request — UI action or random-sound press —
arriving while `audio_in_progress` is set is dropped with no state change
and no transport write; within a scheduled sequence the flag is cleared
exactly once, as the final event, immediately after the 0.2 s cooldown
that follows the group-select and clip-play writes; and at most one
sequence is in flight under the serialized schedule in which each
scheduled coroutine starts before the next request arrives (the guarantee
the unserialized program does not give, by `audioExclusive_counterexample`). -/
theorem audioExclusive_amended :
    (∀ (s : AudioRace) (g c : Nat), s.audioInProgress = true →
      audioRaceStep s (AudioRaceEv.uiAudio g c) = (s, []) ∧
      audioRaceStep s (AudioRaceEv.randomSound g c) = (s, [])) ∧
    (∀ evs : List AudioSerialEv, audioSerialInv (audioSerialRun evs)) ∧
    (∀ (g c : Nat) (ok : Bool),
      (playAudioEvents g c ok).getLast? = some AudioEv.flagClear ∧
      (playAudioEvents g c ok).dropLast.getLast? = some (AudioEv.sleep (1/5)) ∧
      AudioEv.flagClear ∉ (playAudioEvents g c ok).dropLast ∧
      (playAudioEvents g c ok).head? = some AudioEv.flagSet) := by
  have hreq : ∀ (s : AudioRace) (g c : Nat), s.audioInProgress = true →
      audioRaceStep s (AudioRaceEv.uiAudio g c) = (s, []) ∧
      audioRaceStep s (AudioRaceEv.randomSound g c) = (s, []) := by
    intro s g c h
    constructor
    · simp only [audioRaceStep]
      by_cases hcon : s.connected = false
      · rw [if_pos hcon]
      · rw [if_neg hcon, if_pos h]
    · simp only [audioRaceStep]
      by_cases hcon : s.connected = false
      · rw [if_pos hcon]
      · rw [if_neg hcon, if_pos h]
  refine ⟨hreq, ?_, ?_⟩
  · have hstep : ∀ (s : AudioRace) (e : AudioSerialEv),
        audioSerialInv s → audioSerialInv (audioSerialStep s e) := by
      intro s e hs
      obtain ⟨hp, hr, hf⟩ := hs
      cases e with
      | request g c =>
        show audioSerialInv (audioRaceStep (audioRaceStep s (AudioRaceEv.uiAudio g c)).1
          (AudioRaceEv.coroStart g c)).1
        by_cases hflag : s.audioInProgress
        · rw [(hreq s g c hflag).1]
          show audioSerialInv (audioRaceStep s (AudioRaceEv.coroStart g c)).1
          simp only [audioRaceStep]
          rw [if_pos hp]
          exact ⟨hp, hr, hf⟩
        · by_cases hcon : s.connected = false
          · have h1 : audioRaceStep s (AudioRaceEv.uiAudio g c) = (s, []) := by
              simp only [audioRaceStep]
              rw [if_pos hcon]
            rw [h1]
            show audioSerialInv (audioRaceStep s (AudioRaceEv.coroStart g c)).1
            simp only [audioRaceStep]
            rw [if_pos hp]
            exact ⟨hp, hr, hf⟩
          · have hflag0 : s.audioInProgress = false := by
              cases hb : s.audioInProgress
              · rfl
              · exact absurd hb hflag
            have hr0 : s.running = 0 := by
              rcases Nat.lt_or_ge s.running 1 with hlt | hge
              · omega
              · have he1 : s.running = 1 := by omega
                have hft := hf.mpr he1
                rw [hflag0] at hft
                exact absurd hft (by simp)
            have h1 : audioRaceStep s (AudioRaceEv.uiAudio g c) =
                ({ s with pending := s.pending + 1 }, []) := by
              simp only [audioRaceStep]
              rw [if_neg hcon, if_neg hflag]
            rw [h1]
            show audioSerialInv (audioRaceStep { s with pending := s.pending + 1 }
              (AudioRaceEv.coroStart g c)).1
            simp only [audioRaceStep]
            rw [if_neg (by simp)]
            refine ⟨?_, ?_, ?_⟩
            · show s.pending + 1 - 1 = 0
              omega
            · show s.running + 1 ≤ 1
              omega
            · show (true = true ↔ s.running + 1 = 1)
              simp [hr0]
      | complete =>
        show audioSerialInv (audioRaceStep s AudioRaceEv.coroFinish).1
        simp only [audioRaceStep]
        by_cases hr1 : s.running = 0
        · rw [if_pos hr1]
          exact ⟨hp, hr, hf⟩
        · rw [if_neg hr1]
          refine ⟨hp, ?_, ?_⟩
          · show s.running - 1 ≤ 1
            omega
          · constructor
            · intro hfalse
              simp at hfalse
            · intro hn
              have hn2 : s.running - 1 = 1 := hn
              exact absurd hn2 (by omega)
    have key : ∀ (evs : List AudioSerialEv) (s : AudioRace),
        audioSerialInv s → audioSerialInv (evs.foldl audioSerialStep s) := by
      intro evs
      induction evs with
      | nil => intro s hs; simpa using hs
      | cons e rest ih =>
        intro s hs
        exact ih (audioSerialStep s e) (hstep s e hs)
    intro evs
    exact key evs audioRaceInit ⟨rfl, by simp [audioRaceInit], by simp [audioRaceInit]⟩
  · intro g c ok
    cases ok
    · exact ⟨rfl, rfl, by simp [playAudioEvents, audioGroupFrame, audioBase], rfl⟩
    · exact ⟨rfl, rfl,
        by simp [playAudioEvents, audioGroupFrame, audioClipFrame, audioBase], rfl⟩

/-- Witness for C10 (amended): a UI audio request and a random-sound press
arriving while the flag is set are both dropped without effects, a
serialized request/complete/request trace keeps the invariant, and the
concrete timeline for group 1 clip 2 ends with the single flag clear. -/
theorem audioExclusive_amended_witness :
    (audioRaceStep ⟨true, true, 0, 1⟩ (AudioRaceEv.uiAudio 1 2) = (⟨true, true, 0, 1⟩, []) ∧
      audioRaceStep ⟨true, true, 0, 1⟩ (AudioRaceEv.randomSound 3 3) =
        (⟨true, true, 0, 1⟩, [])) ∧
    audioSerialInv (audioSerialRun [AudioSerialEv.request 1 2, AudioSerialEv.complete,
      AudioSerialEv.request 3 3]) ∧
    (playAudioEvents 1 2 true).getLast? = some AudioEv.flagClear :=
  ⟨⟨(audioExclusive_amended.1 ⟨true, true, 0, 1⟩ 1 2 rfl).1,
    (audioExclusive_amended.1 ⟨true, true, 0, 1⟩ 3 3 rfl).2⟩,
   audioExclusive_amended.2.1 [AudioSerialEv.request 1 2, AudioSerialEv.complete,
     AudioSerialEv.request 3 3],
   (audioExclusive_amended.2.2 1 2 true).1⟩
